import Mathlib

/-!
Shallow embedding of `src/sequence_convolution/models.py` (hebel):
`MaxPoolingLayer` and `MultiSequenceConvolutionLayer`.

GPU tensors are modelled by an abstract type `T`; the external CUDA kernels
(`convolve_sequence_gradient`, `max_pool_gradient`, `sum_delta`, `sign`,
`apply_dropout_mask`, elementwise multiplication and the activation
derivatives, all declared as black-box primitives in the spec's §6) are
modelled as function parameters collected in a `Prims` structure.
Construction-time bookkeeping (region resolution, weight sharing, offsets,
parameter counting) is modelled exactly; Python exceptions (KeyError,
IndexError, ValueError, TypeError, ZeroDivisionError, UnboundLocalError)
are modelled by `Option` or by explicit outcome constructors.
Scalar hyperparameters (penalty weights, learning-rate multipliers) are
modelled by `ℚ`.
-/

namespace SeqConv

/-- `MaxPoolingLayer._compute_n_units` (models.py lines 94-97):
`int(np.ceil(n_in / float(pool_size))) * n_filters`.  For
`pool_size > 0` the exact ceiling `⌈n_in / pool_size⌉` equals the
integer ceiling division `(n_in + pool_size - 1) / pool_size` used
here (proved below as `compute_n_units_is_ceil`; the float division is
exact for every realistic size).  `pool_size = 0` makes
`n_in / float(pool_size)` raise ZeroDivisionError in the source, so
every caller of this model guards it with `none`. -/
def compute_n_units (n_in pool_size n_filters : ℕ) : ℕ :=
  ((n_in + pool_size - 1) / pool_size) * n_filters

/-- `MaxPoolingLayer` attribute record (models.py lines 77-92). -/
structure MaxPoolingLayer where
  n_in : ℕ
  pool_size : ℕ
  n_filters : ℕ
  l1_penalty_weight : ℚ
  l2_penalty_weight : ℚ
  dropout : Bool
  n_units : ℕ
deriving DecidableEq, Repr

/-- `MaxPoolingLayer.__init__` (lines 81-92).  The `l1_penalty_weight` and
`l2_penalty_weight` arguments are accepted but the attributes are
assigned the constant `0.` (lines 87-88).  `pool_size = 0` makes
`n_in / float(pool_size)` raise ZeroDivisionError, modelled by `none`. -/
def MaxPoolingLayer.init (n_in pool_size n_filters : ℕ) (dropout : Bool)
    (l1_penalty_weight l2_penalty_weight : ℚ) : Option MaxPoolingLayer :=
  if pool_size = 0 then none
  else some
    { n_in := n_in
      pool_size := pool_size
      n_filters := n_filters
      l1_penalty_weight := 0
      l2_penalty_weight := 0
      dropout := dropout
      n_units := compute_n_units n_in pool_size n_filters }

/-- `MaxPoolingLayer.l1_penalty` property (lines 110-112): constantly `0.`. -/
def MaxPoolingLayer.l1_penalty (_layer : MaxPoolingLayer) : ℚ := 0

/-- `MaxPoolingLayer.l2_penalty` property (lines 114-116): constantly `0.`. -/
def MaxPoolingLayer.l2_penalty (_layer : MaxPoolingLayer) : ℚ := 0

/-- Outcome of the cache-unpacking prelude of `MaxPoolingLayer.backprop`
(lines 134-142).  `ok` records the unpacked activations and argmax and,
in `maskApplied`, the dropout mask that is multiplied into `df_output`
(`none` when no mask is applied). -/
inductive PoolBackpropOutcome (α : Type) where
  | ok (activations argmax : α) (maskApplied : Option α)
  | valueError
  | unboundLocalError
deriving DecidableEq, Repr

/-- Cache unpacking and dropout-mask application of
`MaxPoolingLayer.backprop` (lines 134-142).  A 2-element cache binds
`activations, argmax` but never binds `dropout_mask`; line 141
(`if self.dropout and dropout_mask is not None`) then reads the unbound
name when `self.dropout` is truthy, raising UnboundLocalError.  A cache
of any length other than 2 or 3 raises ValueError (line 139). -/
def MaxPoolingLayer.backpropDispatch {α : Type} (layer : MaxPoolingLayer)
    (cache : List α) : PoolBackpropOutcome α :=
  match cache with
  | [activations, argmax] =>
      if layer.dropout then .unboundLocalError
      else .ok activations argmax none
  | [activations, argmax, dropout_mask] =>
      .ok activations argmax (if layer.dropout then some dropout_mask else none)
  | _ => .valueError

/-- `MaxPoolingLayer.feed_forward` (lines 118-128), returning the cache
tuple as a list.  The pooling kernel `pycuda_ops.max_pool`, the mask
sampler `sample_dropout_mask` and the in-place scaling
`activations *= .5` are black-box primitives passed as arguments. -/
def MaxPoolingLayer.feedForward {α : Type} (layer : MaxPoolingLayer)
    (input : α) (prediction : Bool) (max_pool : α → α × α)
    (sampleMask : α → α) (halve : α → α) : List α :=
  let p := max_pool input
  let activations := if layer.dropout && prediction then halve p.1 else p.1
  if layer.dropout && !prediction then
    [activations, p.2, sampleMask activations]
  else
    [activations, p.2]

/-- Activation-function names accepted by `_resolve_activation_fct`
(external `HiddenLayer` helper); the `f`/`df` pair stored in the region
dictionary is determined by this name. -/
inductive ActName where
  | sigmoid
  | tanhAct
  | relu
  | linear
deriving DecidableEq, Repr

/-- `layer['layer_type']` of a resolved region: `'master'` or `'slave'`. -/
inductive LayerType where
  | master
  | slave
deriving DecidableEq, Repr

/-- One entry of the `subregion_layers` argument of
`MultiSequenceConvolutionLayer.__init__` before resolution: a Python dict
whose optional keys are modelled by `Option` (a missing key is `none`).
Caller-supplied `W`/`b` tensors are omitted: they are asserted to have
exactly the same shapes as freshly allocated ones (lines 204, 212), so
the shape bookkeeping below is unaffected. -/
structure RegionSpec where
  n_in : ℕ
  n_filters : Option ℕ := none
  filter_width : Option ℕ := none
  pool_size : Option ℕ := none
  activation_function : Option ActName := none
  l1_penalty_weight : Option ℚ := none
  l2_penalty_weight : Option ℚ := none
  lr_multiplier : Option ℚ := none
  weight_share : Option ℕ := none
deriving DecidableEq, Repr

/-- A region dictionary after `__init__`'s loop body has processed it
(lines 175-242).  Keys that can still be absent on slave regions
(`l1_penalty_weight`, `l2_penalty_weight`, `lr_multiplier`) stay
`Option`-valued. -/
structure ResolvedRegion where
  n_in : ℕ
  n_filters : ℕ
  filter_width : ℕ
  pool_size : ℕ
  activation_function : ActName
  l1_penalty_weight : Option ℚ
  l2_penalty_weight : Option ℚ
  lr_multiplier : Option ℚ
  layer_type : LayerType
  param_idx : ℕ
  n_units : ℕ
  output_offset : ℕ
deriving DecidableEq, Repr

/-- The layer-wide keyword arguments of
`MultiSequenceConvolutionLayer.__init__` (lines 154-165); `None` is
`none`. -/
structure MultiConvConfig where
  n_filters : Option ℕ := none
  filter_width : Option ℕ := none
  pool_size : Option ℕ := none
  activation_function : Option ActName := none
  l1_penalty_weight : Option ℚ := none
  l2_penalty_weight : Option ℚ := none
  lr_multiplier : Option ℚ := none
deriving DecidableEq, Repr

/-- The narrow contract of the external fully connected `HiddenLayer`
used by the composition layer at construction time: its unit count, its
parameter count and its dropout flag. -/
structure FCLayer where
  n_units : ℕ
  n_parameters : ℕ
  dropout : Bool
deriving DecidableEq, Repr

/-- Mutable state of `__init__`'s region loop: the resolved region
dictionaries so far, the physical weight shapes `self.W` (each
`(n_filters, 4*filter_width)`) and bias shapes `self.b` (each
`(n_filters,)`), and the running `output_offset` / `param_idx` counters
(lines 170-174). -/
structure InitState where
  resolved : List ResolvedRegion
  Ws : List (ℕ × ℕ)
  bs : List ℕ
  output_offset : ℕ
  param_idx : ℕ
deriving DecidableEq, Repr

/-- One iteration of the region loop of
`MultiSequenceConvolutionLayer.__init__` (lines 175-242).

* Lines 178-192: every layer-wide argument that is not `None`
  overwrites the region's entry unconditionally (`layer[k] = arg`),
  so the effective value is `cfg field <|> spec field`.
* Master branch (lines 194-226): reading a key the dict lacks raises
  KeyError (`none`); a weight shape and a bias shape are appended and
  `param_idx` allocated; missing `l1_penalty_weight`,
  `l2_penalty_weight`, `lr_multiplier` are filled with `0.`, `0.`, `1.`.
* Slave branch (lines 228-236): `subregion_layers[weight_share]` must
  already carry `param_idx`, i.e. must have been processed earlier —
  a forward or self reference raises KeyError (`none`), an out-of-range
  index IndexError (`none`).
* Lines 238-242: `n_units` via `_compute_n_units` (ZeroDivisionError on
  `pool_size = 0`, modelled by `none`), then the sequential
  `output_offset` assignment. -/
def initStep (cfg : MultiConvConfig) (st : InitState) (spec : RegionSpec) :
    Option InitState :=
  let nFilters? := cfg.n_filters <|> spec.n_filters
  let filterWidth? := cfg.filter_width <|> spec.filter_width
  let poolSize? := cfg.pool_size <|> spec.pool_size
  let act? := cfg.activation_function <|> spec.activation_function
  let l1? := cfg.l1_penalty_weight <|> spec.l1_penalty_weight
  let l2? := cfg.l2_penalty_weight <|> spec.l2_penalty_weight
  let lr? := cfg.lr_multiplier <|> spec.lr_multiplier
  match spec.weight_share with
  | none =>
      match nFilters?, filterWidth?, act?, poolSize? with
      | some nf, some fw, some act, some ps =>
          if ps = 0 then none
          else
            let r : ResolvedRegion :=
              { n_in := spec.n_in
                n_filters := nf
                filter_width := fw
                pool_size := ps
                activation_function := act
                l1_penalty_weight := some (l1?.getD 0)
                l2_penalty_weight := some (l2?.getD 0)
                lr_multiplier := some (lr?.getD 1)
                layer_type := .master
                param_idx := st.param_idx
                n_units := compute_n_units spec.n_in ps nf
                output_offset := st.output_offset }
            some
              { resolved := st.resolved ++ [r]
                Ws := st.Ws ++ [(nf, 4 * fw)]
                bs := st.bs ++ [nf]
                output_offset := st.output_offset + r.n_units
                param_idx := st.param_idx + 1 }
      | _, _, _, _ => none
  | some i =>
      match st.resolved.get? i, poolSize? with
      | some master, some ps =>
          if ps = 0 then none
          else
            let r : ResolvedRegion :=
              { n_in := spec.n_in
                n_filters := master.n_filters
                filter_width := master.filter_width
                pool_size := ps
                activation_function := master.activation_function
                l1_penalty_weight := l1?
                l2_penalty_weight := l2?
                lr_multiplier := lr?
                layer_type := .slave
                param_idx := master.param_idx
                n_units := compute_n_units spec.n_in ps master.n_filters
                output_offset := st.output_offset }
            some
              { resolved := st.resolved ++ [r]
                Ws := st.Ws
                bs := st.bs
                output_offset := st.output_offset + r.n_units
                param_idx := st.param_idx }
      | _, _ => none

/-- The whole region loop of `__init__` (lines 175-242). -/
def initLoop (cfg : MultiConvConfig) :
    InitState → List RegionSpec → Option InitState
  | st, [] => some st
  | st, spec :: rest => (initStep cfg st spec).bind fun st' => initLoop cfg st' rest

/-- `MultiSequenceConvolutionLayer` attribute record after `__init__`. -/
structure MultiConvLayer where
  regions : List ResolvedRegion
  Ws : List (ℕ × ℕ)
  bs : List ℕ
  fully_connected_layer : Option FCLayer
  fc_layer_offset : ℕ
  n_units : ℕ
  dropout : Bool
deriving DecidableEq, Repr

/-- `MultiSequenceConvolutionLayer.__init__` (lines 154-273): run the
region loop, reject a fully connected layer that has its own dropout
(lines 254-258, ValueError), then set `self.n_units` to the sum of the
region unit counts plus the fully connected branch's unit count, with
`self.fc_layer_offset` at the start of the fully connected range
(lines 260-265). -/
def MultiConvLayer.init (cfg : MultiConvConfig) (specs : List RegionSpec)
    (fully_connected_layer : Option FCLayer) (dropout : Bool) :
    Option MultiConvLayer :=
  (initLoop cfg ⟨[], [], [], 0, 0⟩ specs).bind fun st =>
    if fully_connected_layer.any (·.dropout) then none
    else
      let base := (st.resolved.map (·.n_units)).sum
      some
        { regions := st.resolved
          Ws := st.Ws
          bs := st.bs
          fully_connected_layer := fully_connected_layer
          fc_layer_offset := if fully_connected_layer.isSome then base else 0
          n_units := base + ((fully_connected_layer.map (·.n_units)).getD 0)
          dropout := dropout }

/-- `MultiSequenceConvolutionLayer.n_parameters` property (lines
275-280): `len(self.W) + len(self.b)` plus the fully connected branch's
parameter count. -/
def MultiConvLayer.n_parameters (L : MultiConvLayer) : ℕ :=
  L.Ws.length + L.bs.length +
    ((L.fully_connected_layer.map (·.n_parameters)).getD 0)

/-- `self.master_layers` (lines 267-268): the master regions, in
declaration order. -/
def MultiConvLayer.master_layers (L : MultiConvLayer) : List ResolvedRegion :=
  L.regions.filter (fun r => r.layer_type == LayerType.master)

/-- Number of master regions in a region list. -/
def masterCount (rs : List ResolvedRegion) : ℕ :=
  (rs.filter (fun r => r.layer_type == LayerType.master)).length

/-- The external numeric kernels consumed by the backward pass
(spec §6), as black-box functions over an abstract tensor type `T`.
`actDf` is the activation-derivative `layer['df']` resolved from the
activation name; `sub` and `smulQ` model the gpuarray in-place `-=` and
the scalar-times-tensor broadcast used by the penalty adjustments. -/
structure Prims (T : Type) where
  max_pool_gradient : T → T → T → ℕ → ℕ → ℕ → ℕ → T
  actDf : ActName → T → T
  mul : T → T → T
  sum_delta : T → ℕ → T
  convolve_sequence_gradient : T → T → ℕ → ℕ → T
  sign : T → T
  apply_dropout_mask : T → T → T
  sub : T → T → T
  smulQ : ℚ → T → T

/-- `df_filtermap` of one region (lines 410-414):
`max_pool_gradient(filtermap, argmax, df_output, pool_size, n_filters,
width_pooled=n_units/n_filters, pooled_offset=output_offset)`.
`n_units / n_filters` is Python 2 integer division of two ints. -/
def regionPoolGrad {T : Type} (P : Prims T) (r : ResolvedRegion)
    (filtermap argmax df_output : T) : T :=
  P.max_pool_gradient filtermap argmax df_output r.pool_size r.n_filters
    (r.n_units / r.n_filters) r.output_offset

/-- `delta = act_df(filtermap) * df_filtermap` of one region
(lines 418-419). -/
def regionDelta {T : Type} (P : Prims T) (r : ResolvedRegion)
    (filtermap argmax df_output : T) : T :=
  P.mul (P.actDf r.activation_function filtermap)
    (regionPoolGrad P r filtermap argmax df_output)

/-- `df_W_layer` of one region (lines 421-422): the standalone weight
gradient `convolve_sequence_gradient(input_region, delta, filter_width,
n_filters)`. -/
def regionGradW {T : Type} (P : Prims T) (r : ResolvedRegion)
    (input filtermap argmax df_output : T) : T :=
  P.convolve_sequence_gradient input
    (regionDelta P r filtermap argmax df_output) r.filter_width r.n_filters

/-- `df_b_layer` of one region (line 420): the standalone bias gradient
`sum_delta(delta, n_filters)`. -/
def regionGradB {T : Type} (P : Prims T) (r : ResolvedRegion)
    (filtermap argmax df_output : T) : T :=
  P.sum_delta (regionDelta P r filtermap argmax df_output) r.n_filters

/-- `itertools.izip` over three lists (truncates at the shortest), as
used by `for input_region, filtermap, layer in izip(...)` (lines
406-407). -/
def zip3 {α β γ : Type} : List α → List β → List γ → List (α × β × γ)
  | a :: as, b :: bs, c :: cs => (a, b, c) :: zip3 as bs cs
  | _, _, _ => []

/-- The gradient-accumulation loop of
`MultiSequenceConvolutionLayer.backprop` (lines 406-429): a master
region appends its standalone gradients to `df_W` / `df_b` (lines
424-426), a slave region adds its standalone gradients into the
accumulator at its `param_idx` (lines 427-429, in-place `+=`).  A slave
`param_idx` outside the current accumulator raises IndexError (`none`).
`df_filtermaps` collects the per-region filtermap gradients (line 416). -/
def accumLoop {T : Type} [Add T] (P : Prims T) (argmax df_output : T) :
    List (T × T × ResolvedRegion) → List T → List T → List T →
    Option (List T × List T × List T)
  | [], dfW, dfb, dffm => some (dfW, dfb, dffm)
  | (inp, fm, r) :: rest, dfW, dfb, dffm =>
      let dffmap := regionPoolGrad P r fm argmax df_output
      let gW := regionGradW P r inp fm argmax df_output
      let gB := regionGradB P r fm argmax df_output
      match r.layer_type with
      | .master =>
          accumLoop P argmax df_output rest (dfW ++ [gW]) (dfb ++ [gB])
            (dffm ++ [dffmap])
      | .slave =>
          match dfW.get? r.param_idx, dfb.get? r.param_idx with
          | some w, some b =>
              accumLoop P argmax df_output rest (dfW.set r.param_idx (w + gW))
                (dfb.set r.param_idx (b + gB)) (dffm ++ [dffmap])
          | _, _ => none

/-- One iteration of the penalty loop of `backprop` (lines 431-435), on
the accumulated weight gradient `df_W_i` paired with its master
descriptor.  Note what the source really computes:

* line 433 is `df_W_i -= layer['l1_penalty_weight'] * sign(df_W_i)` —
  the sign of the *gradient*, not of the weight tensor;
* line 435 is `df_W_i -= layer['l2_penalty_weight'] * self.W`, where
  `self.W` is the Python *list* of every master weight tensor, so a
  nonzero `l2_penalty_weight` raises
  `TypeError: can't multiply sequence by non-int of type 'float'`
  (modelled by `none`).

Compare `SequenceConvolutionLayer.backprop` (lines 67-73), which uses
`sign(self.W)` and `self.W` for the same adjustments. -/
def penaltyStep {T : Type} (P : Prims T) (m : ResolvedRegion) (g : T) :
    Option T :=
  let l1 := m.l1_penalty_weight.getD 0
  let g1 := if l1 ≠ 0 then P.sub g (P.smulQ l1 (P.sign g)) else g
  if m.l2_penalty_weight.getD 0 ≠ 0 then none else some g1

/-- The penalty loop of `backprop` (lines 431-435):
`for df_W_i, layer in izip(df_W, self.master_layers)`, mutating the
paired entries of `df_W` in place; entries beyond the shorter of the two
lists are left untouched by `izip`. -/
def penaltyLoop {T : Type} (P : Prims T) :
    List ResolvedRegion → List T → Option (List T)
  | [], rest => some rest
  | _, [] => some []
  | m :: ms, g :: gs =>
      (penaltyStep P m g).bind fun g' =>
        (penaltyLoop P ms gs).map fun gs' => g' :: gs'

/-- Lines 399-400 of `backprop`: `if self.dropout and dropout_mask is
not None: apply_dropout_mask(df_output, dropout_mask)` — the mask, when
present, is applied in place to the whole `df_output` tensor. -/
def maskedOutput {T : Type} (P : Prims T) (dropout : Bool)
    (mask : Option T) (d : T) : T :=
  if dropout then
    match mask with
    | some m => P.apply_dropout_mask d m
    | none => d
  else d

/-- `MultiSequenceConvolutionLayer.backprop` (lines 393-449) for the
convolutional part: dropout-mask application, the per-region
accumulation loop and the penalty loop, returning
`(df_W, df_b, df_filtermaps)`.  The fully connected branch (lines
437-447) only appends `grad_fc` after `df_W + df_b` and returns
`df_input_fc` alongside; it does not alter the entries modelled here. -/
def multiBackprop {T : Type} [Add T] (P : Prims T)
    (regions masters : List ResolvedRegion) (dropout : Bool)
    (input filtermaps : List T) (argmax df_output : T) (mask : Option T) :
    Option (List T × List T × List T) :=
  let d := maskedOutput P dropout mask df_output
  (accumLoop P argmax d (zip3 input filtermaps regions) [] [] []).bind
    fun out =>
      (penaltyLoop P masters out.1).map fun dfW' => (dfW', out.2.1, out.2.2)

/-- Well-formedness of the master/slave layout relative to `k` physical
parameters already allocated: masters carry the next sequential
`param_idx`, slaves reference an already-allocated index.  This is what
"every slave region references an earlier-declared master" amounts to
after `__init__`'s sequential `param_idx` allocation. -/
def slavesResolvedFrom (k : ℕ) : List ResolvedRegion → Bool
  | [] => true
  | r :: rs =>
      match r.layer_type with
      | .master => r.param_idx == k && slavesResolvedFrom (k + 1) rs
      | .slave => decide (r.param_idx < k) && slavesResolvedFrom k rs

/-- Sum, in declaration order, of the standalone weight gradients of
every region aliasing physical parameter `p`. -/
def sumGradW {T : Type} [AddCommMonoid T] (P : Prims T) (argmax d : T)
    (p : ℕ) (ts : List (T × T × ResolvedRegion)) : T :=
  ((ts.filter (fun t => t.2.2.param_idx == p)).map
    (fun t => regionGradW P t.2.2 t.1 t.2.1 argmax d)).sum

/-- Sum, in declaration order, of the standalone bias gradients of every
region aliasing physical parameter `p`. -/
def sumGradB {T : Type} [AddCommMonoid T] (P : Prims T) (argmax d : T)
    (p : ℕ) (ts : List (T × T × ResolvedRegion)) : T :=
  ((ts.filter (fun t => t.2.2.param_idx == p)).map
    (fun t => regionGradB P t.2.2 t.2.1 argmax d)).sum

/-- Shape-level embedding of the dropout-mask sampling in
`MultiSequenceConvolutionLayer.feed_forward` (lines 350-391):
`activations_pooled` is allocated with `self.n_units` columns
(line 354), the fully connected activations are inserted into it at
column `fc_layer_offset` (lines 381-382), and line 387 samples
`dropout_mask = sample_dropout_mask(activations_pooled)` — over the
whole buffer.  Result: how many columns the sampled mask covers
(`none` when no mask is sampled, line 389). -/
def feedForwardMaskCols (L : MultiConvLayer) (prediction : Bool) :
    Option ℕ :=
  if L.dropout && !prediction then some L.n_units else none


/-- Offset invariant of the construction loop: the running offset is
the total of the resolved regions' unit counts, and every resolved
region's offset is the sum of the unit counts of the regions declared
before it. -/
def OffsetInv (st : InitState) : Prop :=
  st.output_offset = (st.resolved.map (·.n_units)).sum ∧
  ∀ k r, st.resolved.get? k = some r →
    r.output_offset = ((st.resolved.take k).map (·.n_units)).sum

/-- Parameter invariant of the construction loop: one weight shape and
one bias shape per master region, `param_idx` equal to the number of
masters so far, every region's `param_idx` already allocated, and each
master's physical shapes located at its `param_idx`. -/
def ParamInv (st : InitState) : Prop :=
  st.Ws.length = masterCount st.resolved ∧
  st.bs.length = masterCount st.resolved ∧
  st.param_idx = masterCount st.resolved ∧
  ∀ k r, st.resolved.get? k = some r →
    r.param_idx < st.param_idx ∧
    (r.layer_type = .master →
      st.Ws.get? r.param_idx = some (r.n_filters, 4 * r.filter_width) ∧
      st.bs.get? r.param_idx = some r.n_filters)

/-- Relation between a region spec and the region resolved from it at
position `k`: masters take every field from the layer-wide argument
when that is not `None` and from the spec otherwise; slaves copy the
shared fields from the earlier region they reference. -/
def SpecRel (cfg : MultiConvConfig) (resolved : List ResolvedRegion)
    (k : ℕ) (s : RegionSpec) (r : ResolvedRegion) : Prop :=
  match s.weight_share with
  | none =>
      r.layer_type = .master ∧
      some r.n_filters = (cfg.n_filters <|> s.n_filters) ∧
      some r.filter_width = (cfg.filter_width <|> s.filter_width) ∧
      some r.pool_size = (cfg.pool_size <|> s.pool_size) ∧
      some r.activation_function =
        (cfg.activation_function <|> s.activation_function) ∧
      r.l1_penalty_weight =
        some ((cfg.l1_penalty_weight <|> s.l1_penalty_weight).getD 0) ∧
      r.l2_penalty_weight =
        some ((cfg.l2_penalty_weight <|> s.l2_penalty_weight).getD 0) ∧
      r.lr_multiplier = some ((cfg.lr_multiplier <|> s.lr_multiplier).getD 1)
  | some i =>
      ∃ ri, i < k ∧ resolved.get? i = some ri ∧ r.layer_type = .slave ∧
        r.n_filters = ri.n_filters ∧ r.filter_width = ri.filter_width ∧
        r.param_idx = ri.param_idx ∧
        r.activation_function = ri.activation_function

/-- Spec/region correspondence invariant of the construction loop. -/
def SpecInv (cfg : MultiConvConfig) (pre : List RegionSpec)
    (st : InitState) : Prop :=
  st.resolved.length = pre.length ∧
  ∀ k s, pre.get? k = some s → ∃ r, st.resolved.get? k = some r ∧
    SpecRel cfg st.resolved k s r

/-! Concrete fixtures used to instantiate the theorems below at explicit
inputs.  `intPrims` instantiates the black-box kernels over `T = ℤ` with
arbitrary computable functions (the structural theorems hold for every
instantiation; the fixtures only have to evaluate). -/

/-- A concrete primitive pack over `ℤ`. -/
def intPrims : Prims ℤ where
  max_pool_gradient := fun fm am d ps nf wp off =>
    fm + am + d + ps + nf + wp + off
  actDf := fun _ x => x + 1
  mul := fun a b => a * b
  sum_delta := fun d nf => d + nf
  convolve_sequence_gradient := fun inp delta fw nf => inp * delta + fw + nf
  sign := Int.sign
  apply_dropout_mask := fun d m => d * m
  sub := fun a b => a - b
  smulQ := fun q x => q.num * x

/-- Resolved master region fixture (what `__init__` produces for
`exSpecMaster` below). -/
def exRegM : ResolvedRegion :=
  { n_in := 6
    n_filters := 2
    filter_width := 3
    pool_size := 2
    activation_function := ActName.sigmoid
    l1_penalty_weight := some 0
    l2_penalty_weight := some 0
    lr_multiplier := some 1
    layer_type := .master
    param_idx := 0
    n_units := 6
    output_offset := 0 }

/-- Resolved slave region fixture aliasing `exRegM`'s parameters. -/
def exRegS : ResolvedRegion :=
  { n_in := 4
    n_filters := 2
    filter_width := 3
    pool_size := 2
    activation_function := ActName.sigmoid
    l1_penalty_weight := none
    l2_penalty_weight := none
    lr_multiplier := none
    layer_type := .slave
    param_idx := 0
    n_units := 4
    output_offset := 6 }

/-- Master region spec fixture. -/
def exSpecMaster : RegionSpec :=
  { n_in := 6
    n_filters := some 2
    filter_width := some 3
    pool_size := some 2
    activation_function := some ActName.sigmoid }

/-- Slave region spec fixture sharing weights with region 0. -/
def exSpecSlave : RegionSpec :=
  { n_in := 4
    pool_size := some 2
    weight_share := some 0 }

/-- Fully connected branch fixture. -/
def exFC : FCLayer := { n_units := 3, n_parameters := 2, dropout := false }

/-- A master region whose descriptor carries `l1_penalty_weight = 2`
(and no L2 penalty). -/
def cexRegL1 : ResolvedRegion :=
  { exRegM with l1_penalty_weight := some 2 }

/-- A master region whose descriptor carries `l2_penalty_weight = 2`
(and no L1 penalty). -/
def cexRegL2 : ResolvedRegion :=
  { exRegM with l2_penalty_weight := some 2 }

/-- Layer-wide configuration fixture supplying `n_filters = 3`. -/
def cexCfgNf : MultiConvConfig := { n_filters := some 3 }

/-- Region spec fixture explicitly supplying `n_filters = 5`. -/
def cexSpecNf : RegionSpec :=
  { n_in := 8
    n_filters := some 5
    filter_width := some 2
    pool_size := some 2
    activation_function := some ActName.sigmoid }

/-- A dropout max-pooling layer fixture (`n_in = 4`, `pool_size = 2`,
`n_filters = 1`), as built by `MaxPoolingLayer.init 4 2 1 true 0 0`. -/
def exPool : MaxPoolingLayer :=
  { n_in := 4
    pool_size := 2
    n_filters := 1
    l1_penalty_weight := 0
    l2_penalty_weight := 0
    dropout := true
    n_units := 2 }


/-- The layer that `MultiConvLayer.init {} [exSpecMaster] (some exFC)
true` constructs. -/
def cex5Layer : MultiConvLayer :=
  { regions := [exRegM]
    Ws := [(2, 12)]
    bs := [2]
    fully_connected_layer := some exFC
    fc_layer_offset := 6
    n_units := 9
    dropout := true }


/-- The layer that `MultiConvLayer.init {} [exSpecMaster, exSpecSlave]
(some exFC) true` constructs: a master region, a slave region sharing
its filter bank and a fully connected branch. -/
def cex37Layer : MultiConvLayer :=
  { regions := [exRegM, exRegS]
    Ws := [(2, 12)]
    bs := [2]
    fully_connected_layer := some exFC
    fc_layer_offset := 10
    n_units := 13
    dropout := true }


/-- The region that `MultiConvLayer.init cexCfgNf [cexSpecNf] none
false` resolves: the layer-wide `n_filters = 3` has overwritten the
spec's explicit `n_filters = 5`. -/
def cex6Reg : ResolvedRegion :=
  { n_in := 8
    n_filters := 3
    filter_width := 2
    pool_size := 2
    activation_function := ActName.sigmoid
    l1_penalty_weight := some 0
    l2_penalty_weight := some 0
    lr_multiplier := some 1
    layer_type := .master
    param_idx := 0
    n_units := 12
    output_offset := 0 }

/-- The layer that `MultiConvLayer.init cexCfgNf [cexSpecNf] none
false` constructs. -/
def cex6Layer : MultiConvLayer :=
  { regions := [cex6Reg]
    Ws := [(3, 8)]
    bs := [3]
    fully_connected_layer := none
    fc_layer_offset := 0
    n_units := 12
    dropout := false }

/-- Concrete `max_pool` kernel stand-in over `ℤ`. -/
def exMaxPool (x : ℤ) : ℤ × ℤ := (x + 1, x + 2)

/-- Concrete `sample_dropout_mask` stand-in over `ℤ`. -/
def exSampleMask (x : ℤ) : ℤ := x + 3

/-- Concrete `activations *= .5` stand-in over `ℤ`. -/
def exHalve (x : ℤ) : ℤ := x + 4

/-! ## Theorems -/

/-- For `pool_size > 0` the integer ceiling division of
`compute_n_units` agrees with the exact ceiling of the real division
that `np.ceil(n_in / float(pool_size))` computes. -/
theorem compute_n_units_is_ceil (n_in pool_size n_filters : ℕ)
    (hp : 0 < pool_size) :
    (compute_n_units n_in pool_size n_filters : ℤ) =
      ⌈(n_in : ℚ) / (pool_size : ℚ)⌉ * n_filters := by
  have hpQ : (0 : ℚ) < (pool_size : ℚ) := by exact_mod_cast hp
  have hbr : (⌈(n_in : ℚ) / (pool_size : ℚ)⌉ : ℤ)
      = ((n_in + pool_size - 1) / pool_size : ℕ) := by
    set q := (n_in + pool_size - 1) / pool_size with hq
    have hub : q * pool_size ≤ n_in + pool_size - 1 := Nat.div_mul_le_self _ _
    have hlb : n_in ≤ q * pool_size := by
      rcases Nat.eq_zero_or_pos n_in with h0 | h0
      · simp [h0]
      · have hd := Nat.div_add_mod (n_in - 1) pool_size
        have hmod : (n_in - 1) % pool_size < pool_size := Nat.mod_lt _ hp
        have hqeq : q = (n_in - 1) / pool_size + 1 := by
          rw [hq, show n_in + pool_size - 1 = (n_in - 1) + pool_size by omega,
            Nat.add_div_right _ hp]
        have hco : ((n_in - 1) / pool_size + 1) * pool_size
            = pool_size * ((n_in - 1) / pool_size) + pool_size := by ring
        rw [hqeq, hco]
        omega
    have hnp : 1 ≤ n_in + pool_size := by omega
    have hubQ : (q : ℚ) * pool_size ≤ (n_in : ℚ) + pool_size - 1 := by
      have h := (Nat.cast_le (α := ℚ)).2 hub
      push_cast [Nat.cast_sub hnp] at h
      linarith
    have hlbQ : (n_in : ℚ) ≤ (q : ℚ) * pool_size := by exact_mod_cast hlb
    rw [Int.ceil_eq_iff]
    constructor
    · push_cast
      rw [lt_div_iff₀ hpQ]
      nlinarith
    · push_cast
      rw [div_le_iff₀ hpQ]
      linarith
  unfold compute_n_units
  rw [Nat.cast_mul, hbr]

/-- C4: for a constructed `MaxPoolingLayer` the number of output units
is `ceil(n_in / pool_size) * n_filters`, both as the exact ceiling of
the real division (what `np.ceil` computes) and as the integer ceiling
division `((n_in + pool_size - 1) / pool_size) * n_filters`; a trailing
partial window thus still contributes one pooled element. -/
theorem max_pool_layer_n_units_ceil (n_in pool_size n_filters : ℕ)
    (dropout : Bool) (l1 l2 : ℚ) (layer : MaxPoolingLayer)
    (h : MaxPoolingLayer.init n_in pool_size n_filters dropout l1 l2 =
      some layer) :
    (layer.n_units : ℤ) = ⌈(n_in : ℚ) / (pool_size : ℚ)⌉ * n_filters ∧
      layer.n_units = ((n_in + pool_size - 1) / pool_size) * n_filters := by
  by_cases hp : pool_size = 0
  · rw [MaxPoolingLayer.init, if_pos hp] at h
    cases h
  · rw [MaxPoolingLayer.init, if_neg hp] at h
    have hl := (Option.some.inj h).symm
    subst hl
    exact ⟨compute_n_units_is_ceil _ _ _ (Nat.pos_of_ne_zero hp), rfl⟩

/-- C4 witness: `n_in = 10`, `pool_size = 3`, `n_filters = 4` gives
`n_units = 16`. -/
theorem max_pool_layer_n_units_ceil_witness :
    ((16 : ℕ) : ℤ) = ⌈(10 : ℚ) / (3 : ℚ)⌉ * 4 ∧
      (16 : ℕ) = ((10 + 3 - 1) / 3) * 4 := by
  have h := max_pool_layer_n_units_ceil 10 3 4 false 0 0
    { n_in := 10, pool_size := 3, n_filters := 4, l1_penalty_weight := 0,
      l2_penalty_weight := 0, dropout := false, n_units := 16 } rfl
  simpa using h

/-- C9: `MaxPoolingLayer.__init__` discards the penalty arguments: the
stored attributes and the `l1_penalty` / `l2_penalty` properties are `0`
whatever `l1` and `l2` were passed. -/
theorem max_pool_penalty_weights_discarded (n_in pool_size n_filters : ℕ)
    (dropout : Bool) (l1 l2 : ℚ) (layer : MaxPoolingLayer)
    (h : MaxPoolingLayer.init n_in pool_size n_filters dropout l1 l2 =
      some layer) :
    layer.l1_penalty_weight = 0 ∧ layer.l2_penalty_weight = 0 ∧
      layer.l1_penalty = 0 ∧ layer.l2_penalty = 0 := by
  by_cases hp : pool_size = 0
  · rw [MaxPoolingLayer.init, if_pos hp] at h
    cases h
  · rw [MaxPoolingLayer.init, if_neg hp] at h
    have hl := (Option.some.inj h).symm
    subst hl
    exact ⟨rfl, rfl, rfl, rfl⟩

/-- C9 witness: constructing with `l1 = 5`, `l2 = 7` still stores `0`. -/
theorem max_pool_penalty_weights_discarded_witness :
    exPool.l1_penalty_weight = 0 ∧ exPool.l2_penalty_weight = 0 ∧
      exPool.l1_penalty = 0 ∧ exPool.l2_penalty = 0 :=
  max_pool_penalty_weights_discarded 4 2 1 true 5 7 exPool rfl

/-- C8: the cache-arity check of `MaxPoolingLayer.backprop` raises
ValueError exactly when the cache has neither 2 nor 3 elements. -/
theorem max_pool_cache_arity_value_error {α : Type}
    (layer : MaxPoolingLayer) (cache : List α) :
    layer.backpropDispatch cache = PoolBackpropOutcome.valueError ↔
      (cache.length ≠ 2 ∧ cache.length ≠ 3) := by
  match cache with
  | [] => simp [MaxPoolingLayer.backpropDispatch]
  | [a] => simp [MaxPoolingLayer.backpropDispatch]
  | [a, b] =>
      by_cases hd : layer.dropout <;>
        simp [MaxPoolingLayer.backpropDispatch, hd]
  | [a, b, c] =>
      by_cases hd : layer.dropout <;>
        simp [MaxPoolingLayer.backpropDispatch, hd]
  | a :: b :: c :: d :: rest =>
      simp [MaxPoolingLayer.backpropDispatch]

/-- C10: on a dropout pooling layer, `backprop` applied to the
2-element cache that `feed_forward` produces in prediction mode reads
the never-bound `dropout_mask` variable: UnboundLocalError, not the
documented ValueError and not a normal return. -/
theorem max_pool_dropout_prediction_unbound {α : Type}
    (layer : MaxPoolingLayer) (hdrop : layer.dropout = true) (input : α)
    (max_pool : α → α × α) (sampleMask halve : α → α) :
    (layer.feedForward input true max_pool sampleMask halve).length = 2 ∧
      layer.backpropDispatch
          (layer.feedForward input true max_pool sampleMask halve) =
        PoolBackpropOutcome.unboundLocalError := by
  constructor <;>
    simp [MaxPoolingLayer.feedForward, MaxPoolingLayer.backpropDispatch,
      hdrop]

/-- C10 witness at a concrete dropout layer and concrete kernels. -/
theorem max_pool_dropout_prediction_unbound_witness :
    (exPool.feedForward (0 : ℤ) true exMaxPool exSampleMask exHalve).length
        = 2 ∧
      exPool.backpropDispatch
          (exPool.feedForward (0 : ℤ) true exMaxPool exSampleMask exHalve) =
        PoolBackpropOutcome.unboundLocalError :=
  max_pool_dropout_prediction_unbound exPool rfl 0 exMaxPool exSampleMask
    exHalve

/-- C2 (code bug) evaluated: at a master with `l1_penalty_weight = 2`
and accumulated gradient `-3`, the penalty loop of
`MultiSequenceConvolutionLayer.backprop` yields
`-3 - 2 * sign(-3) = -1` — the sign of the *gradient* — which differs
from the claimed `-3 - 2 * sign(W)` for any positive weight entry
(e.g. `W = 4` gives `-5`); and at a master with `l2_penalty_weight = 2`
the loop evaluates `2 * self.W` with `self.W` a Python list, raising
TypeError (modelled `none`) instead of subtracting `2 * W`. -/
theorem penalty_loop_gradient_sign_and_l2_crash :
    penaltyLoop intPrims [cexRegL1] [(-3 : ℤ)] = some [-1] ∧
      ((-1 : ℤ) ≠ intPrims.sub (-3) (intPrims.smulQ 2 (intPrims.sign 4))) ∧
      penaltyLoop intPrims [cexRegL2] [(-3 : ℤ)] = none := by
  refine ⟨?_, ?_, ?_⟩ <;> decide


/-- C5 counterexample: one region of 6 pooled columns plus a fully
connected branch of 3 units gives `fc_layer_offset = 6` and
`n_units = 9`; the dropout mask sampled by `feed_forward` covers all
9 columns (and 9 ≠ 6), so it does not cover only
`[0, fc_layer_offset)` and does not exclude the fully connected range
`[6, 9)`. -/
theorem dropout_mask_not_confined_cex :
    (MultiConvLayer.init {} [exSpecMaster] (some exFC) true).map
        (fun L => (feedForwardMaskCols L false, L.fc_layer_offset,
          L.n_units)) = some (some 9, 6, 9) ∧ (9 : ℕ) ≠ 6 :=
  ⟨by decide, by decide⟩

/-- C5 amended: with dropout enabled and not predicting, the sampled
mask covers the whole pooled buffer `[0, n_units)` — strictly
containing the fully connected range `[fc_layer_offset, n_units)`,
which is nonempty whenever the branch has units — and `backprop`
applies the mask to the entire output gradient tensor. -/
theorem dropout_mask_covers_whole_buffer {T : Type} (P : Prims T)
    (m d : T) (cfg : MultiConvConfig) (specs : List RegionSpec)
    (fc : FCLayer) (L : MultiConvLayer)
    (h : MultiConvLayer.init cfg specs (some fc) true = some L)
    (hfc : 0 < fc.n_units) :
    feedForwardMaskCols L false = some L.n_units ∧
      L.fc_layer_offset < L.n_units ∧
      maskedOutput P L.dropout (some m) d = P.apply_dropout_mask d m := by
  rw [MultiConvLayer.init] at h
  obtain ⟨st, h1, h2⟩ := Option.bind_eq_some.mp h
  by_cases hdf : (some fc).any (·.dropout)
  · rw [if_pos hdf] at h2
    cases h2
  · rw [if_neg hdf] at h2
    have hL := (Option.some.inj h2).symm
    subst hL
    refine ⟨rfl, ?_, rfl⟩
    simpa using hfc

/-- C5 amended witness at the concrete layer `cex5Layer`. -/
theorem dropout_mask_covers_whole_buffer_witness :
    feedForwardMaskCols cex5Layer false = some cex5Layer.n_units ∧
      cex5Layer.fc_layer_offset < cex5Layer.n_units ∧
      maskedOutput intPrims cex5Layer.dropout (some (5 : ℤ)) 7 =
        intPrims.apply_dropout_mask 7 5 :=
  dropout_mask_covers_whole_buffer intPrims 5 7 {} [exSpecMaster] exFC
    cex5Layer rfl (by decide)

/-- C6 counterexample: the region spec explicitly supplies
`n_filters = 5` while the layer-wide argument supplies `n_filters = 3`;
the resolved region carries `n_filters = 3` (and weight shape
`(3, 8)`): the explicitly supplied per-region value is overwritten, not
preserved. -/
theorem layer_defaults_overwrite_cex :
    (MultiConvLayer.init cexCfgNf [cexSpecNf] none false).map
        (fun L => (L.regions.map (·.n_filters), L.Ws)) =
      some ([3], [(3, 8)]) ∧ cexSpecNf.n_filters = some 5 ∧ (3 : ℕ) ≠ 5 :=
  ⟨by decide, by decide, by decide⟩

/-- Shape of one successful `initStep`: exactly one region is appended,
its offset is the previous running offset, and its remaining fields
follow the master or the slave branch of the source. -/
theorem initStep_shape (cfg : MultiConvConfig) (st : InitState)
    (spec : RegionSpec) (st' : InitState)
    (h : initStep cfg st spec = some st') :
    ∃ r : ResolvedRegion,
      st'.resolved = st.resolved ++ [r] ∧
      r.output_offset = st.output_offset ∧
      st'.output_offset = st.output_offset + r.n_units ∧
      r.n_in = spec.n_in ∧
      r.n_units = compute_n_units spec.n_in r.pool_size r.n_filters ∧
      some r.pool_size = (cfg.pool_size <|> spec.pool_size) ∧
      ((spec.weight_share = none ∧ r.layer_type = .master ∧
          r.param_idx = st.param_idx ∧
          st'.param_idx = st.param_idx + 1 ∧
          st'.Ws = st.Ws ++ [(r.n_filters, 4 * r.filter_width)] ∧
          st'.bs = st.bs ++ [r.n_filters] ∧
          some r.n_filters = (cfg.n_filters <|> spec.n_filters) ∧
          some r.filter_width = (cfg.filter_width <|> spec.filter_width) ∧
          some r.activation_function =
            (cfg.activation_function <|> spec.activation_function) ∧
          r.l1_penalty_weight =
            some ((cfg.l1_penalty_weight <|> spec.l1_penalty_weight).getD 0) ∧
          r.l2_penalty_weight =
            some ((cfg.l2_penalty_weight <|> spec.l2_penalty_weight).getD 0) ∧
          r.lr_multiplier =
            some ((cfg.lr_multiplier <|> spec.lr_multiplier).getD 1)) ∨
        (∃ i master, spec.weight_share = some i ∧ r.layer_type = .slave ∧
          st.resolved.get? i = some master ∧
          st'.param_idx = st.param_idx ∧
          st'.Ws = st.Ws ∧ st'.bs = st.bs ∧
          r.n_filters = master.n_filters ∧
          r.filter_width = master.filter_width ∧
          r.param_idx = master.param_idx ∧
          r.activation_function = master.activation_function ∧
          r.l1_penalty_weight =
            (cfg.l1_penalty_weight <|> spec.l1_penalty_weight) ∧
          r.l2_penalty_weight =
            (cfg.l2_penalty_weight <|> spec.l2_penalty_weight) ∧
          r.lr_multiplier = (cfg.lr_multiplier <|> spec.lr_multiplier))) := by
  cases hws : spec.weight_share with
  | none =>
      cases hnf : (cfg.n_filters <|> spec.n_filters) with
      | none => simp [initStep, hws, hnf] at h
      | some nf =>
      cases hfw : (cfg.filter_width <|> spec.filter_width) with
      | none => simp [initStep, hws, hnf, hfw] at h
      | some fw =>
      cases hact : (cfg.activation_function <|> spec.activation_function) with
      | none => simp [initStep, hws, hnf, hfw, hact] at h
      | some act =>
      cases hps : (cfg.pool_size <|> spec.pool_size) with
      | none => simp [initStep, hws, hnf, hfw, hact, hps] at h
      | some ps =>
      by_cases hps0 : ps = 0
      · simp [initStep, hws, hnf, hfw, hact, hps, hps0] at h
      · simp only [initStep, hws, hnf, hfw, hact, hps] at h
        rw [if_neg hps0] at h
        have hst := (Option.some.inj h).symm
        subst hst
        exact ⟨_, rfl, rfl, rfl, rfl, rfl, rfl,
          Or.inl ⟨rfl, rfl, rfl, rfl, rfl, rfl, rfl, rfl,
            rfl, rfl, rfl, rfl⟩⟩
  | some i =>
      cases hm : st.resolved.get? i with
      | none =>
          cases hps : (cfg.pool_size <|> spec.pool_size) with
          | none =>
              simp only [initStep, hws, hm, hps] at h
              cases h
          | some ps =>
              simp only [initStep, hws, hm, hps] at h
              cases h
      | some master =>
      cases hps : (cfg.pool_size <|> spec.pool_size) with
      | none =>
          simp only [initStep, hws, hm, hps] at h
          cases h
      | some ps =>
      by_cases hps0 : ps = 0
      · simp only [initStep, hws, hm, hps] at h
        rw [if_pos hps0] at h
        cases h
      · simp only [initStep, hws, hm, hps] at h
        rw [if_neg hps0] at h
        have hst := (Option.some.inj h).symm
        subst hst
        exact ⟨_, rfl, rfl, rfl, rfl, rfl, rfl,
          Or.inr ⟨i, master, rfl, rfl, hm, rfl, rfl, rfl, rfl, rfl, rfl,
            rfl, rfl, rfl, rfl⟩⟩

/-- `initLoop` preserves every invariant that `initStep` preserves. -/
theorem initLoop_preserves (cfg : MultiConvConfig)
    (C : List RegionSpec → InitState → Prop)
    (hstep : ∀ pre st spec st', initStep cfg st spec = some st' →
      C pre st → C (pre ++ [spec]) st')
    (specs : List RegionSpec) :
    ∀ pre st st', C pre st → initLoop cfg st specs = some st' →
      C (pre ++ specs) st' := by
  induction specs with
  | nil =>
      intro pre st st' hC h
      simp only [initLoop] at h
      cases h
      simpa using hC
  | cons spec rest ih =>
      intro pre st st' hC h
      simp only [initLoop] at h
      obtain ⟨st1, h1, h2⟩ := Option.bind_eq_some.mp h
      have h3 := ih (pre ++ [spec]) st1 st'
        (hstep pre st spec st1 h1 hC) h2
      simpa using h3

/-- `initStep` preserves `OffsetInv`. -/
theorem initStep_offsetInv (cfg : MultiConvConfig) (st : InitState)
    (spec : RegionSpec) (st' : InitState)
    (h : initStep cfg st spec = some st') (hC : OffsetInv st) :
    OffsetInv st' := by
  obtain ⟨r, hres, hoff, hrun, -, -, -, -⟩ := initStep_shape cfg st spec st' h
  obtain ⟨hsum, hpre⟩ := hC
  constructor
  · rw [hrun, hres, hsum]
    simp
  · intro k rk hk
    rw [hres] at hk
    rcases Nat.lt_or_ge k st.resolved.length with hlt | hge
    · rw [List.get?_append hlt] at hk
      rw [hres, List.take_append_of_le_length (Nat.le_of_lt hlt)]
      exact hpre k rk hk
    · rw [List.get?_append_right hge] at hk
      have hk0 : k - st.resolved.length = 0 := by
        by_contra hne
        rw [List.get?_eq_none.mpr] at hk
        · cases hk
        · simp
          omega
      have hkeq : k = st.resolved.length := by omega
      rw [hk0] at hk
      have hrk : rk = r := by simpa using hk.symm
      subst hrk
      rw [hkeq, hres, List.take_left]
      rw [hoff, hsum]

/-- C3: after construction the region offsets are sequential in
declaration order — each region's `output_offset` is the sum of the
`n_units` of all earlier regions — the fully connected branch (when
present) starts at `fc_layer_offset`, which equals the sum of all
region unit counts, and the ranges exactly tile `[0, n_units)`:
`sum(region n_units) + fc n_units = n_units`. -/
theorem multi_conv_offsets_tile (cfg : MultiConvConfig)
    (specs : List RegionSpec) (fc : Option FCLayer) (dropout : Bool)
    (L : MultiConvLayer)
    (h : MultiConvLayer.init cfg specs fc dropout = some L) :
    (∀ k r, L.regions.get? k = some r →
        r.output_offset = ((L.regions.take k).map (·.n_units)).sum) ∧
      (fc.isSome = true →
        L.fc_layer_offset = (L.regions.map (·.n_units)).sum) ∧
      L.n_units =
        (L.regions.map (·.n_units)).sum + ((fc.map (·.n_units)).getD 0) := by
  rw [MultiConvLayer.init] at h
  obtain ⟨st, h1, h2⟩ := Option.bind_eq_some.mp h
  by_cases hdf : fc.any (·.dropout)
  · rw [if_pos hdf] at h2
    cases h2
  · rw [if_neg hdf] at h2
    have hL := (Option.some.inj h2).symm
    subst hL
    have h0 : OffsetInv ⟨[], [], [], 0, 0⟩ := ⟨rfl, by simp⟩
    have hinv : OffsetInv st :=
      initLoop_preserves cfg (fun _ s => OffsetInv s)
        (fun _ s sp s' hs hC => initStep_offsetInv cfg s sp s' hs hC)
        specs [] _ st h0 h1
    refine ⟨hinv.2, ?_, rfl⟩
    intro hf
    simp [hf]

/-- C3 witness at the two-region layer `cex37Layer`. -/
theorem multi_conv_offsets_tile_witness :
    cex37Layer.regions.get? 1 = some exRegS ∧
      exRegS.output_offset =
        ((cex37Layer.regions.take 1).map (·.n_units)).sum ∧
      cex37Layer.fc_layer_offset =
        (cex37Layer.regions.map (·.n_units)).sum ∧
      cex37Layer.n_units = (cex37Layer.regions.map (·.n_units)).sum +
        (((some exFC).map (·.n_units)).getD 0) := by
  have h := multi_conv_offsets_tile {} [exSpecMaster, exSpecSlave]
    (some exFC) true cex37Layer rfl
  exact ⟨by decide, h.1 1 exRegS (by decide), h.2.1 (by decide), h.2.2⟩

/-- `masterCount` is additive under append. -/
theorem masterCount_append (rs₁ rs₂ : List ResolvedRegion) :
    masterCount (rs₁ ++ rs₂) = masterCount rs₁ + masterCount rs₂ := by
  simp [masterCount, List.filter_append]

/-- A singleton master counts 1, a singleton slave 0. -/
theorem masterCount_singleton (r : ResolvedRegion) :
    masterCount [r] = if r.layer_type = .master then 1 else 0 := by
  cases hl : r.layer_type <;>
    simp [masterCount, List.filter_cons, hl, beq_iff_eq]

/-- `initStep` preserves `ParamInv`. -/
theorem initStep_paramInv (cfg : MultiConvConfig) (st : InitState)
    (spec : RegionSpec) (st' : InitState)
    (h : initStep cfg st spec = some st') (hC : ParamInv st) :
    ParamInv st' := by
  obtain ⟨r, hres, -, -, -, -, -, hbranch⟩ := initStep_shape cfg st spec st' h
  obtain ⟨hW, hb, hp, hall⟩ := hC
  rcases hbranch with
    ⟨hws, hmaster, hpidx, hp', hWs', hbs', -⟩ |
    ⟨i, master, hws, hslave, hgm, hp', hWs', hbs', hnf, hfw, hpidx, hact, -⟩
  · have hmc : masterCount st'.resolved = masterCount st.resolved + 1 := by
      rw [hres, masterCount_append, masterCount_singleton, if_pos hmaster]
    refine ⟨?_, ?_, ?_, ?_⟩
    · rw [hWs', hmc]
      simp [hW]
    · rw [hbs', hmc]
      simp [hb]
    · rw [hp', hmc, hp]
    · intro k rk hk
      rw [hres] at hk
      rcases Nat.lt_or_ge k st.resolved.length with hlt | hge
      · rw [List.get?_append hlt] at hk
        obtain ⟨hidx, hmast⟩ := hall k rk hk
        refine ⟨by omega, fun hm => ?_⟩
        obtain ⟨hw1, hb1⟩ := hmast hm
        have hltW : rk.param_idx < st.Ws.length := by omega
        have hltb : rk.param_idx < st.bs.length := by omega
        rw [hWs', hbs', List.get?_append hltW, List.get?_append hltb]
        exact ⟨hw1, hb1⟩
      · rw [List.get?_append_right hge] at hk
        have hk0 : k - st.resolved.length = 0 := by
          by_contra hne
          rw [List.get?_eq_none.mpr] at hk
          · cases hk
          · simp
            omega
        rw [hk0] at hk
        have hrk : rk = r := by simpa using hk.symm
        subst hrk
        refine ⟨by omega, fun _ => ?_⟩
        constructor
        · rw [hWs', hpidx, show st.param_idx = st.Ws.length by omega,
            List.get?_concat_length]
        · rw [hbs', hpidx, show st.param_idx = st.bs.length by omega,
            List.get?_concat_length]
  · have hmc : masterCount st'.resolved = masterCount st.resolved := by
      rw [hres, masterCount_append, masterCount_singleton,
        if_neg (by simp [hslave])]
      simp
    refine ⟨?_, ?_, ?_, ?_⟩
    · rw [hWs', hmc]
      exact hW
    · rw [hbs', hmc]
      exact hb
    · rw [hp', hmc]
      exact hp
    · intro k rk hk
      rw [hres] at hk
      rcases Nat.lt_or_ge k st.resolved.length with hlt | hge
      · rw [List.get?_append hlt] at hk
        obtain ⟨hidx, hmast⟩ := hall k rk hk
        refine ⟨by omega, fun hm => ?_⟩
        rw [hWs', hbs']
        exact hmast hm
      · rw [List.get?_append_right hge] at hk
        have hk0 : k - st.resolved.length = 0 := by
          by_contra hne
          rw [List.get?_eq_none.mpr] at hk
          · cases hk
          · simp
            omega
        rw [hk0] at hk
        have hrk : rk = r := by simpa using hk.symm
        subst hrk
        obtain ⟨him, -⟩ := hall i master hgm
        refine ⟨by omega, fun hm => ?_⟩
        rw [hslave] at hm
        cases hm

/-- `SpecRel` only inspects entries of `resolved` before position `k`,
so appending regions preserves it. -/
theorem specRel_append (cfg : MultiConvConfig)
    (resolved : List ResolvedRegion) (tail : List ResolvedRegion)
    (k : ℕ) (hk : k ≤ resolved.length) (s : RegionSpec)
    (r : ResolvedRegion) (h : SpecRel cfg resolved k s r) :
    SpecRel cfg (resolved ++ tail) k s r := by
  unfold SpecRel at h ⊢
  cases hws : s.weight_share with
  | none =>
      rw [hws] at h
      exact h
  | some i =>
      rw [hws] at h
      obtain ⟨ri, hik, hgi, hrest⟩ := h
      exact ⟨ri, hik, by rw [List.get?_append (by omega)]; exact hgi, hrest⟩

/-- `initStep` preserves `SpecInv`, extending the processed prefix. -/
theorem initStep_specInv (cfg : MultiConvConfig) (pre : List RegionSpec)
    (st : InitState) (spec : RegionSpec) (st' : InitState)
    (h : initStep cfg st spec = some st')
    (hC : SpecInv cfg pre st) : SpecInv cfg (pre ++ [spec]) st' := by
  obtain ⟨r, hres, -, -, -, -, hps, hbranch⟩ := initStep_shape cfg st spec st' h
  obtain ⟨hlen, hall⟩ := hC
  constructor
  · rw [hres]
    simp [hlen]
  · intro k s hk
    rcases Nat.lt_or_ge k pre.length with hlt | hge
    · rw [List.get?_append hlt] at hk
      obtain ⟨rk, hrk, hrel⟩ := hall k s hk
      refine ⟨rk, ?_, ?_⟩
      · rw [hres, List.get?_append (by omega)]
        exact hrk
      · rw [hres]
        exact specRel_append cfg st.resolved [r] k (by omega) s rk hrel
    · rw [List.get?_append_right hge] at hk
      have hk0 : k - pre.length = 0 := by
        by_contra hne
        rw [List.get?_eq_none.mpr] at hk
        · cases hk
        · simp
          omega
      have hkeq : k = pre.length := by omega
      rw [hk0] at hk
      have hs : s = spec := by simpa using hk.symm
      subst hs
      refine ⟨r, ?_, ?_⟩
      · rw [hres, hkeq, ← hlen, List.get?_concat_length]
      · unfold SpecRel
        rcases hbranch with
          ⟨hws, hmaster, -, -, -, -, hnf, hfw, hact, hl1, hl2, hlr⟩ |
          ⟨i, master, hws, hslave, hgm, -, -, -, hnf, hfw, hpidx, hact, -⟩
        · rw [hws]
          exact ⟨hmaster, hnf, hfw, hps, hact, hl1, hl2, hlr⟩
        · rw [hws]
          have hilt : i < st.resolved.length :=
            (List.get?_eq_some.mp hgm).1
          refine ⟨master, by omega, ?_, hslave, hnf, hfw, hpidx, hact⟩
          rw [hres, List.get?_append hilt]
          exact hgm

/-- C7: after construction there is exactly one physical weight shape
and one bias shape per master region (none for slaves), `n_parameters`
is twice the master count plus the fully connected branch's parameter
count, each master's shapes sit at its `param_idx`, and every slave
copies `n_filters`, `filter_width`, `param_idx` and the activation
function from the region its `weight_share` references. -/
theorem multi_conv_params_per_master (cfg : MultiConvConfig)
    (specs : List RegionSpec) (fc : Option FCLayer) (dropout : Bool)
    (L : MultiConvLayer)
    (h : MultiConvLayer.init cfg specs fc dropout = some L) :
    L.Ws.length = masterCount L.regions ∧
      L.bs.length = masterCount L.regions ∧
      L.n_parameters =
        2 * masterCount L.regions + ((fc.map (·.n_parameters)).getD 0) ∧
      (∀ k r, L.regions.get? k = some r → r.layer_type = .master →
          L.Ws.get? r.param_idx = some (r.n_filters, 4 * r.filter_width) ∧
          L.bs.get? r.param_idx = some r.n_filters) ∧
      (∀ k i s, specs.get? k = some s → s.weight_share = some i →
          ∃ rk ri, L.regions.get? k = some rk ∧
            L.regions.get? i = some ri ∧ rk.layer_type = .slave ∧
            rk.n_filters = ri.n_filters ∧
            rk.filter_width = ri.filter_width ∧
            rk.param_idx = ri.param_idx ∧
            rk.activation_function = ri.activation_function) := by
  rw [MultiConvLayer.init] at h
  obtain ⟨st, h1, h2⟩ := Option.bind_eq_some.mp h
  by_cases hdf : fc.any (·.dropout)
  · rw [if_pos hdf] at h2
    cases h2
  · rw [if_neg hdf] at h2
    have hL := (Option.some.inj h2).symm
    subst hL
    have hp0 : ParamInv ⟨[], [], [], 0, 0⟩ := ⟨rfl, rfl, rfl, by simp⟩
    have hpinv : ParamInv st :=
      initLoop_preserves cfg (fun _ s => ParamInv s)
        (fun _ s sp s' hs hC => initStep_paramInv cfg s sp s' hs hC)
        specs [] _ st hp0 h1
    have hs0 : SpecInv cfg [] ⟨[], [], [], 0, 0⟩ := ⟨rfl, by simp⟩
    have hsinv : SpecInv cfg specs st := by
      have hres := initLoop_preserves cfg (fun pre s => SpecInv cfg pre s)
        (fun pre s sp s' hs hC => initStep_specInv cfg pre s sp s' hs hC)
        specs [] _ st hs0 h1
      simpa using hres
    obtain ⟨hW, hb, -, hall⟩ := hpinv
    refine ⟨hW, hb, ?_, fun k r hk hm => (hall k r hk).2 hm, ?_⟩
    · simp only [MultiConvLayer.n_parameters]
      omega
    · intro k i s hk hws
      obtain ⟨rk, hrk, hrel⟩ := hsinv.2 k s hk
      unfold SpecRel at hrel
      rw [hws] at hrel
      obtain ⟨ri, hik, hgi, hsl, hnf, hfw, hpidx, hact⟩ := hrel
      exact ⟨rk, ri, hrk, hgi, hsl, hnf, hfw, hpidx, hact⟩

/-- C7 witness at the two-region layer `cex37Layer`. -/
theorem multi_conv_params_per_master_witness :
    cex37Layer.Ws.length = masterCount cex37Layer.regions ∧
      cex37Layer.bs.length = masterCount cex37Layer.regions ∧
      cex37Layer.n_parameters = 2 * masterCount cex37Layer.regions +
        (((some exFC).map (·.n_parameters)).getD 0) ∧
      cex37Layer.Ws.get? exRegM.param_idx =
        some (exRegM.n_filters, 4 * exRegM.filter_width) ∧
      cex37Layer.bs.get? exRegM.param_idx = some exRegM.n_filters := by
  have h := multi_conv_params_per_master {} [exSpecMaster, exSpecSlave]
    (some exFC) true cex37Layer rfl
  obtain ⟨h1, h2, h3, h4, -⟩ := h
  have h5 := h4 0 exRegM (by decide) (by decide)
  exact ⟨h1, h2, h3, h5.1, h5.2⟩

/-- C6 amended: a layer-wide argument that is not `None` overwrites the
region's field unconditionally — even an explicitly supplied one — and
the region's own value is used exactly when the layer-wide argument is
`None`; missing penalty and learning-rate fields of a master are then
defaulted to `0`, `0` and `1`. -/
theorem layer_defaults_overwrite (cfg : MultiConvConfig)
    (specs : List RegionSpec) (fc : Option FCLayer) (dropout : Bool)
    (L : MultiConvLayer)
    (h : MultiConvLayer.init cfg specs fc dropout = some L)
    (k : ℕ) (s : RegionSpec) (hs : specs.get? k = some s)
    (hmaster : s.weight_share = none) (r : ResolvedRegion)
    (hr : L.regions.get? k = some r) :
    some r.n_filters = (cfg.n_filters <|> s.n_filters) ∧
      some r.filter_width = (cfg.filter_width <|> s.filter_width) ∧
      some r.pool_size = (cfg.pool_size <|> s.pool_size) ∧
      some r.activation_function =
        (cfg.activation_function <|> s.activation_function) ∧
      r.l1_penalty_weight =
        some ((cfg.l1_penalty_weight <|> s.l1_penalty_weight).getD 0) ∧
      r.l2_penalty_weight =
        some ((cfg.l2_penalty_weight <|> s.l2_penalty_weight).getD 0) ∧
      r.lr_multiplier =
        some ((cfg.lr_multiplier <|> s.lr_multiplier).getD 1) := by
  rw [MultiConvLayer.init] at h
  obtain ⟨st, h1, h2⟩ := Option.bind_eq_some.mp h
  by_cases hdf : fc.any (·.dropout)
  · rw [if_pos hdf] at h2
    cases h2
  · rw [if_neg hdf] at h2
    have hL := (Option.some.inj h2).symm
    subst hL
    have hs0 : SpecInv cfg [] ⟨[], [], [], 0, 0⟩ := ⟨rfl, by simp⟩
    have hsinv : SpecInv cfg specs st := by
      have hres := initLoop_preserves cfg (fun pre s => SpecInv cfg pre s)
        (fun pre s sp s' hs1 hC => initStep_specInv cfg pre s sp s' hs1 hC)
        specs [] _ st hs0 h1
      simpa using hres
    obtain ⟨rk, hrk, hrel⟩ := hsinv.2 k s hs
    have hreq : r = rk := by
      have := hr.symm.trans hrk
      simpa using this
    subst hreq
    unfold SpecRel at hrel
    rw [hmaster] at hrel
    exact ⟨hrel.2.1, hrel.2.2.1, hrel.2.2.2.1, hrel.2.2.2.2.1,
      hrel.2.2.2.2.2.1, hrel.2.2.2.2.2.2.1, hrel.2.2.2.2.2.2.2⟩

/-- C6 amended witness: the explicit `n_filters = 5` of `cexSpecNf` is
overwritten by the layer-wide `n_filters = 3` of `cexCfgNf`. -/
theorem layer_defaults_overwrite_witness :
    some cex6Reg.n_filters = (cexCfgNf.n_filters <|> cexSpecNf.n_filters) ∧
      some cex6Reg.filter_width =
        (cexCfgNf.filter_width <|> cexSpecNf.filter_width) ∧
      some cex6Reg.pool_size =
        (cexCfgNf.pool_size <|> cexSpecNf.pool_size) ∧
      some cex6Reg.activation_function =
        (cexCfgNf.activation_function <|> cexSpecNf.activation_function) ∧
      cex6Reg.l1_penalty_weight = some
        ((cexCfgNf.l1_penalty_weight <|>
          cexSpecNf.l1_penalty_weight).getD 0) ∧
      cex6Reg.l2_penalty_weight = some
        ((cexCfgNf.l2_penalty_weight <|>
          cexSpecNf.l2_penalty_weight).getD 0) ∧
      cex6Reg.lr_multiplier = some
        ((cexCfgNf.lr_multiplier <|> cexSpecNf.lr_multiplier).getD 1) :=
  layer_defaults_overwrite cexCfgNf [cexSpecNf] none false cex6Layer rfl
    0 cexSpecNf rfl rfl cex6Reg rfl

/-- `masterCount` over a cons. -/
theorem masterCount_cons (r : ResolvedRegion) (rs : List ResolvedRegion) :
    masterCount (r :: rs) =
      (if r.layer_type = .master then 1 else 0) + masterCount rs := by
  rw [show r :: rs = [r] ++ rs from rfl, masterCount_append,
    masterCount_singleton]

/-- Head of the per-parameter gradient sum when the head region aliases
parameter `p`. -/
theorem sumGradW_cons_eq {T : Type} [AddCommMonoid T] (P : Prims T)
    (argmax d : T) (p : ℕ) (t : T × T × ResolvedRegion)
    (ts : List (T × T × ResolvedRegion)) (h : t.2.2.param_idx = p) :
    sumGradW P argmax d p (t :: ts) =
      regionGradW P t.2.2 t.1 t.2.1 argmax d +
        sumGradW P argmax d p ts := by
  simp [sumGradW, List.filter_cons, h]

/-- Head of the per-parameter gradient sum when the head region does
not alias parameter `p`. -/
theorem sumGradW_cons_ne {T : Type} [AddCommMonoid T] (P : Prims T)
    (argmax d : T) (p : ℕ) (t : T × T × ResolvedRegion)
    (ts : List (T × T × ResolvedRegion)) (h : t.2.2.param_idx ≠ p) :
    sumGradW P argmax d p (t :: ts) = sumGradW P argmax d p ts := by
  simp [sumGradW, List.filter_cons, h]

/-- Bias analogue of `sumGradW_cons_eq`. -/
theorem sumGradB_cons_eq {T : Type} [AddCommMonoid T] (P : Prims T)
    (argmax d : T) (p : ℕ) (t : T × T × ResolvedRegion)
    (ts : List (T × T × ResolvedRegion)) (h : t.2.2.param_idx = p) :
    sumGradB P argmax d p (t :: ts) =
      regionGradB P t.2.2 t.2.1 argmax d + sumGradB P argmax d p ts := by
  simp [sumGradB, List.filter_cons, h]

/-- Bias analogue of `sumGradW_cons_ne`. -/
theorem sumGradB_cons_ne {T : Type} [AddCommMonoid T] (P : Prims T)
    (argmax d : T) (p : ℕ) (t : T × T × ResolvedRegion)
    (ts : List (T × T × ResolvedRegion)) (h : t.2.2.param_idx ≠ p) :
    sumGradB P argmax d p (t :: ts) = sumGradB P argmax d p ts := by
  simp [sumGradB, List.filter_cons, h]

/-- The region components of `zip3` recover the region list when the
lists have equal lengths (`izip` does not truncate). -/
theorem zip3_map_regions {T : Type} (input filtermaps : List T)
    (regions : List ResolvedRegion) (h1 : input.length = regions.length)
    (h2 : filtermaps.length = regions.length) :
    (zip3 input filtermaps regions).map (fun t => t.2.2) = regions := by
  induction regions generalizing input filtermaps with
  | nil => cases input <;> cases filtermaps <;> rfl
  | cons r rs ih =>
      cases input with
      | nil => simp at h1
      | cons a as =>
          cases filtermaps with
          | nil => simp at h2
          | cons b bs =>
              simp only [zip3, List.map_cons]
              rw [ih as bs (by simpa using h1) (by simpa using h2)]

/-- `List.set` then `get?` at the same in-range index. -/
theorem get?_set_self {α : Type} (l : List α) (i : ℕ) (a : α)
    (h : i < l.length) : (l.set i a).get? i = some a := by
  rw [List.get?_set_eq]
  simp [List.get?_eq_getElem?, List.getElem?_eq_getElem h]

/-- Full specification of the gradient-accumulation loop: starting from
accumulators holding one entry per already-allocated physical parameter
and a region list whose slaves only reference those or the masters of
the list itself, the loop succeeds and every accumulator entry ends as
the declaration-ordered sum of the standalone gradients of the regions
aliasing its physical parameter. -/
theorem accumLoop_spec {T : Type} [AddCommMonoid T] (P : Prims T)
    (argmax d : T) (ts : List (T × T × ResolvedRegion)) :
    ∀ (dfW dfb dffm : List T), dfW.length = dfb.length →
      slavesResolvedFrom dfW.length (ts.map (fun t => t.2.2)) = true →
      ∃ dfW' dfb' dffm',
        accumLoop P argmax d ts dfW dfb dffm = some (dfW', dfb', dffm') ∧
        dfW'.length = dfW.length + masterCount (ts.map (fun t => t.2.2)) ∧
        dfb'.length = dfW'.length ∧
        (∀ p, p < dfW.length →
          dfW'.get? p = (dfW.get? p).map (· + sumGradW P argmax d p ts) ∧
          dfb'.get? p = (dfb.get? p).map (· + sumGradB P argmax d p ts)) ∧
        (∀ p, dfW.length ≤ p → p < dfW'.length →
          dfW'.get? p = some (sumGradW P argmax d p ts) ∧
          dfb'.get? p = some (sumGradB P argmax d p ts)) := by
  induction ts with
  | nil =>
      intro dfW dfb dffm hlen hwf
      refine ⟨dfW, dfb, dffm, rfl, by simp [masterCount], hlen.symm,
        ?_, ?_⟩
      · intro p hp
        constructor
        · cases dfW.get? p <;> simp [sumGradW]
        · cases dfb.get? p <;> simp [sumGradB]
      · intro p hp1 hp2
        omega
  | cons t rest ih =>
      obtain ⟨inp, fm, r⟩ := t
      intro dfW dfb dffm hlen hwf
      simp only [List.map_cons, slavesResolvedFrom] at hwf
      cases hlt : r.layer_type with
      | master =>
          rw [hlt] at hwf
          rw [Bool.and_eq_true] at hwf
          obtain ⟨hpi, hwf1⟩ := hwf
          rw [beq_iff_eq] at hpi
          obtain ⟨dfW', dfb', dffm', hrun, hl, hlb, hlo, hhi⟩ :=
            ih (dfW ++ [regionGradW P r inp fm argmax d])
              (dfb ++ [regionGradB P r fm argmax d])
              (dffm ++ [regionPoolGrad P r fm argmax d])
              (by simp [hlen]) (by simpa using hwf1)
          refine ⟨dfW', dfb', dffm', ?_, ?_, hlb, ?_, ?_⟩
          · simpa only [accumLoop, hlt] using hrun
          · rw [hl]
            simp only [List.map_cons, masterCount_cons]
            rw [if_pos hlt]
            simp only [List.length_append, List.length_singleton]
            omega
          · intro p hp
            obtain ⟨ha, hbb⟩ := hlo p
              (by simp only [List.length_append, List.length_singleton]
                  omega)
            have hpip : r.param_idx ≠ p := by omega
            rw [sumGradW_cons_ne P argmax d p (inp, fm, r) rest hpip,
              sumGradB_cons_ne P argmax d p (inp, fm, r) rest hpip]
            rw [List.get?_append hp] at ha
            rw [List.get?_append (by omega : p < dfb.length)] at hbb
            exact ⟨ha, hbb⟩
          · intro p hp1 hp2
            rcases Nat.lt_or_ge p (dfW.length + 1) with hcase | hcase
            · have hpeq : p = dfW.length := by omega
              subst hpeq
              obtain ⟨ha, hbb⟩ := hlo dfW.length
                (by simp only [List.length_append, List.length_singleton]
                    omega)
              rw [List.get?_concat_length] at ha
              have hconcat :
                  (dfb ++ [regionGradB P r fm argmax d]).get?
                      dfW.length =
                    some (regionGradB P r fm argmax d) := by
                rw [hlen, List.get?_concat_length]
              rw [hconcat] at hbb
              rw [sumGradW_cons_eq P argmax d _ (inp, fm, r) rest hpi,
                sumGradB_cons_eq P argmax d _ (inp, fm, r) rest hpi]
              exact ⟨by simpa using ha, by simpa using hbb⟩
            · obtain ⟨ha, hbb⟩ := hhi p
                (by simp only [List.length_append, List.length_singleton]
                    omega) hp2
              have hpip : r.param_idx ≠ p := by omega
              rw [sumGradW_cons_ne P argmax d p (inp, fm, r) rest hpip,
                sumGradB_cons_ne P argmax d p (inp, fm, r) rest hpip]
              exact ⟨ha, hbb⟩
      | slave =>
          rw [hlt] at hwf
          rw [Bool.and_eq_true] at hwf
          obtain ⟨hpi, hwf1⟩ := hwf
          have hq : r.param_idx < dfW.length := of_decide_eq_true hpi
          have hqb : r.param_idx < dfb.length := by omega
          have hw : dfW.get? r.param_idx =
              some (dfW.get ⟨r.param_idx, hq⟩) := List.get?_eq_get hq
          have hb : dfb.get? r.param_idx =
              some (dfb.get ⟨r.param_idx, hqb⟩) := List.get?_eq_get hqb
          obtain ⟨dfW', dfb', dffm', hrun, hl, hlb, hlo, hhi⟩ :=
            ih (dfW.set r.param_idx
                (dfW.get ⟨r.param_idx, hq⟩ +
                  regionGradW P r inp fm argmax d))
              (dfb.set r.param_idx
                (dfb.get ⟨r.param_idx, hqb⟩ +
                  regionGradB P r fm argmax d))
              (dffm ++ [regionPoolGrad P r fm argmax d])
              (by simp [hlen]) (by simpa using hwf1)
          refine ⟨dfW', dfb', dffm', ?_, ?_, hlb, ?_, ?_⟩
          · simp only [accumLoop, hlt]
            rw [hw, hb]
            exact hrun
          · rw [hl]
            simp only [List.map_cons, masterCount_cons]
            rw [if_neg (by simp [hlt])]
            simp only [List.length_set]
            omega
          · intro p hp
            obtain ⟨ha, hbb⟩ := hlo p (by simpa using hp)
            by_cases hpq : r.param_idx = p
            · subst hpq
              rw [get?_set_self _ _ _ hq] at ha
              rw [get?_set_self _ _ _ hqb] at hbb
              rw [hw, hb]
              rw [sumGradW_cons_eq P argmax d _ (inp, fm, r) rest rfl,
                sumGradB_cons_eq P argmax d _ (inp, fm, r) rest rfl]
              exact ⟨by simpa [add_assoc] using ha,
                by simpa [add_assoc] using hbb⟩
            · rw [List.get?_set_ne _ _ hpq] at ha
              rw [List.get?_set_ne _ _ hpq] at hbb
              rw [sumGradW_cons_ne P argmax d p (inp, fm, r) rest hpq,
                sumGradB_cons_ne P argmax d p (inp, fm, r) rest hpq]
              exact ⟨ha, hbb⟩
          · intro p hp1 hp2
            obtain ⟨ha, hbb⟩ := hhi p (by simpa using hp1) hp2
            have hpip : r.param_idx ≠ p := by omega
            rw [sumGradW_cons_ne P argmax d p (inp, fm, r) rest hpip,
              sumGradB_cons_ne P argmax d p (inp, fm, r) rest hpip]
            exact ⟨ha, hbb⟩

/-- With zero penalty weights on every master descriptor the penalty
loop of `backprop` is the identity. -/
theorem penaltyLoop_id {T : Type} (P : Prims T)
    (masters : List ResolvedRegion) :
    ∀ gs : List T,
      (∀ m ∈ masters, m.l1_penalty_weight.getD 0 = 0 ∧
        m.l2_penalty_weight.getD 0 = 0) →
      penaltyLoop P masters gs = some gs := by
  induction masters with
  | nil =>
      intro gs h
      cases gs <;> rfl
  | cons m ms ih =>
      intro gs h
      cases gs with
      | nil => rfl
      | cons g gs1 =>
          have hm := h m (List.mem_cons_self _ _)
          have hrec := ih gs1 (fun x hx => h x (List.mem_cons_of_mem _ hx))
          simp [penaltyLoop, penaltyStep, hm.1, hm.2, hrec]

/-- C1: under well-formed weight sharing (every slave region references
an earlier-declared master, which after construction means sequential
master `param_idx` and backward slave references) and zero penalty
weights, the convolutional part of
`MultiSequenceConvolutionLayer.backprop` succeeds and the returned
weight and bias gradient at each physical parameter index is exactly
the declaration-ordered sum of the standalone gradients of every
region aliasing that index: the master's gradient seeds the
accumulator and each slave's gradient is added to it. -/
theorem multi_backprop_shared_gradient_sum {T : Type} [AddCommMonoid T]
    (P : Prims T) (regions masters : List ResolvedRegion)
    (dropout : Bool) (input filtermaps : List T) (argmax df_output : T)
    (mask : Option T) (dfW dfb dffm : List T)
    (hlen1 : input.length = regions.length)
    (hlen2 : filtermaps.length = regions.length)
    (hwf : slavesResolvedFrom 0 regions = true)
    (hpen : ∀ m ∈ masters, m.l1_penalty_weight.getD 0 = 0 ∧
      m.l2_penalty_weight.getD 0 = 0)
    (hrun : multiBackprop P regions masters dropout input filtermaps
      argmax df_output mask = some (dfW, dfb, dffm)) :
    dfW.length = masterCount regions ∧
      ∀ p, p < masterCount regions →
        dfW.get? p = some (sumGradW P argmax
            (maskedOutput P dropout mask df_output) p
            (zip3 input filtermaps regions)) ∧
        dfb.get? p = some (sumGradB P argmax
            (maskedOutput P dropout mask df_output) p
            (zip3 input filtermaps regions)) := by
  simp only [multiBackprop] at hrun
  have hmapr := zip3_map_regions input filtermaps regions hlen1 hlen2
  obtain ⟨dfW', dfb', dffm', hacc, hl, hlb, hlo, hhi⟩ :=
    accumLoop_spec P argmax (maskedOutput P dropout mask df_output)
      (zip3 input filtermaps regions) [] [] [] rfl
      (by rw [hmapr]; exact hwf)
  rw [hacc] at hrun
  rw [Option.some_bind] at hrun
  rw [penaltyLoop_id P masters dfW' hpen] at hrun
  rw [Option.map_some'] at hrun
  have h3 := Option.some.inj hrun
  rw [Prod.mk.injEq, Prod.mk.injEq] at h3
  obtain ⟨rfl, rfl, rfl⟩ := h3
  constructor
  · rw [hl, hmapr]
    simp
  · intro p hp
    refine hhi p (Nat.zero_le p) ?_
    rw [hl, hmapr]
    simpa using hp

/-- C1 witness: two regions sharing parameter 0 over `ℤ`, with the
returned gradients equal to the sums of the two standalone
gradients. -/
theorem multi_backprop_shared_gradient_sum_witness :
    ([646] : List ℤ).get? 0 = some (sumGradW intPrims 0
        (maskedOutput intPrims false none 1) 0
        (zip3 [2, 3] [5, 7] [exRegM, exRegS])) ∧
      ([242] : List ℤ).get? 0 = some (sumGradB intPrims 0
        (maskedOutput intPrims false none 1) 0
        (zip3 [2, 3] [5, 7] [exRegM, exRegS])) := by
  have h := multi_backprop_shared_gradient_sum intPrims
    [exRegM, exRegS] [exRegM] false [2, 3] [5, 7] 0 1 none
    [646] [242] [13, 20] rfl rfl (by decide) (by decide) (by decide)
  exact h.2 0 (by decide)

end SeqConv
